import Mathlib

/-!
Verification of the loki-pattern-log-exporter core (src/main.go).

Shallow embedding conventions:
* Go `time.Time` instants and `time.Duration` values are both modelled as `Int`
  (seconds); `time.Since ts` at instant `now` is `now - ts`, and Go's signed
  duration comparison carries over directly.
* The Go map `map[string]time.Time` is modelled as an association list
  `List (String × Int)`; `mapGet` is map indexing, `mapErase` is `delete`,
  and map assignment is erase-then-cons (Go maps keep one value per key).
* External collaborators (the Slack `PostMessage` call, `regexp.Compile`,
  `time.ParseDuration`, the Loki query transport) are passed in as function
  parameters, mirroring §6 of the design: the core treats them as opaque.
* A single `now : Int` parameter stands for the `time.Now()` calls made
  during one operation / one cycle.
-/

/-- Association-list lookup, mirroring Go map indexing `c.messages[message]`
with its `exists` flag folded into `Option`. -/
def mapGet : List (String × Int) → String → Option Int
  | [], _ => none
  | (k, v) :: rest, key => if k = key then some v else mapGet rest key

/-- Association-list key removal, mirroring Go `delete(c.messages, message)`. -/
def mapErase : List (String × Int) → String → List (String × Int)
  | [], _ => []
  | (k, v) :: rest, key =>
      if k = key then mapErase rest key else (k, v) :: mapErase rest key

/-- Keys of the association list; a Go map has pairwise distinct keys, which
for the list model is `(mapKeys m).Nodup`. -/
def mapKeys (m : List (String × Int)) : List String :=
  m.map Prod.fst

/-- MessageCache (src/main.go lines 19-24): recently sent messages with their
send timestamps, plus the dedup window. The `sync.RWMutex` field has no
sequential content; the lock-release window inside `Contains` is modelled
separately by the two phase functions below. -/
structure MessageCache where
  messages : List (String × Int)
  window : Int
deriving Repr, DecidableEq

/-- NewMessageCache (lines 27-32): empty map, given window. -/
def NewMessageCache (window : Int) : MessageCache :=
  { messages := [], window := window }

/-- Add (lines 35-39): `c.messages[message] = time.Now()`. -/
def MessageCache.Add (c : MessageCache) (now : Int) (message : String) : MessageCache :=
  { c with messages := (message, now) :: mapErase c.messages message }

/-- Contains (lines 42-58), as one sequential operation: if the entry exists
and `time.Since(timestamp) < c.window` return true; if it exists but is
expired, delete it and return false; otherwise return false. Returns the
result together with the post-state of the mutated receiver. -/
def MessageCache.Contains (c : MessageCache) (now : Int) (message : String) :
    Bool × MessageCache :=
  match mapGet c.messages message with
  | some timestamp =>
      if now - timestamp < c.window then (true, c)
      else (false, { c with messages := mapErase c.messages message })
  | none => (false, c)

/-- The decision `Contains` reaches while still holding only the read lock
(lines 46-50): the entry is live, or it exists but is expired (so this caller
decides to evict), or it is absent. -/
inductive EvictDecision where
  | live
  | evictExpired
  | absent
deriving Repr, DecidableEq

/-- Read phase of Contains (lines 46-50): performed under `RLock`, before the
lock is released at line 51. -/
def containsReadPhase (c : MessageCache) (now : Int) (message : String) :
    EvictDecision :=
  match mapGet c.messages message with
  | some timestamp =>
      if now - timestamp < c.window then .live else .evictExpired
  | none => .absent

/-- Write phase of Contains (lines 52-54): after `RUnlock`/`Lock`, the delete
is applied to whatever the map holds by then. -/
def containsEvictPhase (c : MessageCache) (message : String) : MessageCache :=
  { c with messages := mapErase c.messages message }

/-- Body of the Cleanup loop (lines 65-70): keep an entry unless
`now.Sub(timestamp) > c.window`; `now` is read once before the loop. -/
def sweepOld (window now : Int) : List (String × Int) → List (String × Int)
  | [] => []
  | (k, v) :: rest =>
      if now - v > window then sweepOld window now rest
      else (k, v) :: sweepOld window now rest

/-- Cleanup (lines 61-71): the periodic sweep. -/
def MessageCache.Cleanup (c : MessageCache) (now : Int) : MessageCache :=
  { c with messages := sweepOld c.window now c.messages }

/-- sendSlackNotification (lines 160-184). `send` models
`api.PostMessage(channel, msg)` returning success or failure. For each
message: skip duplicates via `Contains`; otherwise send, and on error
return that error at once (`return fmt.Errorf...`, line 175) — the rest of
the batch is not processed; on success `Add` the message. Result: the final
cache together with `none` (nil error) or `some msg` (the send error for
`msg`). -/
def sendSlackNotification (send : String → Bool) (now : Int)
    (messages : List String) (cache : MessageCache) :
    MessageCache × Option String :=
  match messages with
  | [] => (cache, none)
  | msg :: rest =>
      let r := cache.Contains now msg
      if r.1 then sendSlackNotification send now rest r.2
      else if send msg then sendSlackNotification send now rest (r.2.Add now msg)
      else (r.2, some msg)

/-- Model of one minute of `time.Duration`, in the seconds scale used here. -/
def minuteDur : Int := 60

/-- queryLoki (lines 139-158). The query is built with the hard-coded range
`time.Now().Add(-time.Minute)` to `time.Now()` (line 141); the configured
interval does not appear in it. The transport is out of scope, so the
returned streams (`results.Data.Result`, one list of line texts per stream)
are a parameter, as is the compiled pattern's `MatchString`. Result: the
query's (start, end) range and the rendered match list. -/
def queryLoki (patternMatch : String → Bool) (now : Int)
    (streams : List (List String)) : (Int × Int) × List String :=
  ((now - minuteDur, now),
    (streams.flatten.filter patternMatch).map
      (fun line => "Found pattern in log: " ++ line))

/-- One poll-loop cycle (lines 226-238): on a query error, log and
`continue` — the cache is untouched; otherwise, if there are matches, run
the notification step (its error is logged, not fatal). The Bool records
whether this cycle terminates the process: it never does. -/
def pollCycle (queryResult : Except String (List String))
    (send : String → Bool) (now : Int) (cache : MessageCache) :
    MessageCache × Bool :=
  match queryResult with
  | .error _ => (cache, false)
  | .ok found =>
      if found.length > 0 then
        ((sendSlackNotification send now found cache).1, false)
      else (cache, false)

/-- One tick of the sweep goroutine (lines 209-215): run Cleanup; never
terminates the process. -/
def sweepTick (cache : MessageCache) (now : Int) : MessageCache × Bool :=
  (cache.Cleanup now, false)

/-- The configuration fields relevant to startup (src/main.go lines 73-84),
after the YAML/env merge (out-of-scope glue). -/
structure Config where
  lokiPattern : String
  lokiInterval : String
  slackToken : String
  slackChannel : String
deriving Repr, DecidableEq

/-- Required-field validation at the end of loadConfig (lines 128-134). -/
def validateConfig (cfg : Config) : Except String Config :=
  if cfg.slackToken = "" then .error "SLACK_TOKEN is required"
  else if cfg.slackChannel = "" then .error "SLACK_CHANNEL is required"
  else .ok cfg

/-- Startup sequence of main (lines 190-203): loadConfig validation, then
`regexp.Compile(cfg.Loki.Pattern)`, then `time.ParseDuration(cfg.Loki.Interval)`;
each failure is `log.Fatalf` (process exit before the poll loop). `compileRegex`
models whether the Go regexp compiles; `parseDuration` models
`time.ParseDuration`. `.ok interval` means the process reaches the poll loop. -/
def startup (compileRegex : String → Bool) (parseDuration : String → Option Int)
    (cfg : Config) : Except String Int :=
  match validateConfig cfg with
  | .error e => .error e
  | .ok cfg2 =>
      if compileRegex cfg2.lokiPattern then
        match parseDuration cfg2.lokiInterval with
        | some interval => .ok interval
        | none => .error "Failed to parse interval"
      else .error "Failed to compile pattern"

/-! ### Helper lemmas about the map model -/

theorem mapGet_mapErase_self (m : List (String × Int)) (k : String) :
    mapGet (mapErase m k) k = none := by
  induction m with
  | nil => rfl
  | cons p rest ih =>
      obtain ⟨k2, v⟩ := p
      by_cases h : k2 = k
      · simp [mapErase, h, ih]
      · simp [mapErase, mapGet, h, ih]

theorem mapGet_mapErase_ne (m : List (String × Int)) {k f : String}
    (h : f ≠ k) : mapGet (mapErase m k) f = mapGet m f := by
  have hkf : k ≠ f := Ne.symm h
  induction m with
  | nil => rfl
  | cons p rest ih =>
      obtain ⟨k2, v⟩ := p
      by_cases h2 : k2 = k
      · subst h2
        simp [mapErase, mapGet, hkf, ih]
      · by_cases h3 : k2 = f
        · subst h3
          simp [mapErase, mapGet, h2, ih]
        · simp [mapErase, mapGet, h2, h3, ih]

theorem mapGet_mapErase_some (m : List (String × Int)) {k f : String} {v : Int}
    (h : mapGet (mapErase m k) f = some v) : mapGet m f = some v := by
  by_cases hk : f = k
  · rw [hk, mapGet_mapErase_self] at h
    exact absurd h (by simp)
  · rwa [mapGet_mapErase_ne m hk] at h

theorem mapGet_sweepOld_none (w now : Int) (m : List (String × Int))
    {k : String} (h : mapGet m k = none) :
    mapGet (sweepOld w now m) k = none := by
  induction m with
  | nil => rfl
  | cons p rest ih =>
      obtain ⟨k2, v⟩ := p
      by_cases h2 : k2 = k
      · simp [mapGet, h2] at h
      · simp only [mapGet, if_neg h2] at h
        by_cases h3 : now - v > w
        · simp [sweepOld, h3, ih h]
        · simp [sweepOld, h3, mapGet, h2, ih h]

theorem mapGet_sweepOld_live (w now : Int) (m : List (String × Int))
    {k : String} {ts : Int} (h : mapGet m k = some ts)
    (hlive : ¬ now - ts > w) : mapGet (sweepOld w now m) k = some ts := by
  induction m with
  | nil => simp [mapGet] at h
  | cons p rest ih =>
      obtain ⟨k2, v⟩ := p
      by_cases h2 : k2 = k
      · simp only [mapGet, if_pos h2] at h
        obtain rfl : v = ts := by injection h
        simp [sweepOld, hlive, mapGet, h2]
      · simp only [mapGet, if_neg h2] at h
        by_cases h3 : now - v > w
        · simp [sweepOld, h3, ih h]
        · simp [sweepOld, h3, mapGet, h2, ih h]

theorem mapGet_eq_none_of_not_mem (m : List (String × Int)) {k : String}
    (h : k ∉ mapKeys m) : mapGet m k = none := by
  induction m with
  | nil => rfl
  | cons p rest ih =>
      obtain ⟨k2, v⟩ := p
      simp only [mapKeys, List.map_cons, List.mem_cons] at h
      push_neg at h
      have h2 : k2 ≠ k := fun hc => h.1 hc.symm
      simp only [mapGet, if_neg h2]
      exact ih (by simpa [mapKeys] using h.2)

theorem mapGet_sweepOld_expired (w now : Int) (m : List (String × Int))
    {k : String} {ts : Int} (hnd : (mapKeys m).Nodup)
    (h : mapGet m k = some ts) (hexp : now - ts > w) :
    mapGet (sweepOld w now m) k = none := by
  induction m with
  | nil => simp [mapGet] at h
  | cons p rest ih =>
      obtain ⟨k2, v⟩ := p
      simp only [mapKeys, List.map_cons, List.nodup_cons] at hnd
      by_cases h2 : k2 = k
      · simp only [mapGet, if_pos h2] at h
        obtain rfl : v = ts := by injection h
        simp only [sweepOld, if_pos hexp]
        apply mapGet_sweepOld_none
        apply mapGet_eq_none_of_not_mem
        rw [← h2]
        exact hnd.1
      · simp only [mapGet, if_neg h2] at h
        by_cases h3 : now - v > w
        · simp [sweepOld, h3, ih hnd.2 h]
        · simp [sweepOld, h3, mapGet, h2, ih hnd.2 h]

theorem mapGet_Add_self (c : MessageCache) (now : Int) (msg : String) :
    mapGet (c.Add now msg).messages msg = some now := by
  simp [MessageCache.Add, mapGet]

theorem mapGet_Add_ne (c : MessageCache) (now : Int) {msg f : String}
    (h : f ≠ msg) : mapGet (c.Add now msg).messages f = mapGet c.messages f := by
  have h2 : msg ≠ f := fun hc => h hc.symm
  simp [MessageCache.Add, mapGet, h2, mapGet_mapErase_ne c.messages h]

theorem mapGet_contains_snd_some (c : MessageCache) (now : Int) (msg : String)
    {f : String} {v : Int}
    (h : mapGet (c.Contains now msg).2.messages f = some v) :
    mapGet c.messages f = some v := by
  cases hm : mapGet c.messages msg with
  | none =>
      simp only [MessageCache.Contains, hm] at h
      exact h
  | some ts =>
      by_cases hlt : now - ts < c.window
      · simp only [MessageCache.Contains, hm, if_pos hlt] at h
        exact h
      · simp only [MessageCache.Contains, hm, if_neg hlt] at h
        exact mapGet_mapErase_some c.messages h

theorem contains_true_snd (c : MessageCache) (now : Int) (msg : String)
    (h : (c.Contains now msg).1 = true) : (c.Contains now msg).2 = c := by
  cases hm : mapGet c.messages msg with
  | none => simp [MessageCache.Contains, hm]
  | some ts =>
      by_cases hlt : now - ts < c.window
      · simp [MessageCache.Contains, hm, if_pos hlt]
      · simp only [MessageCache.Contains, hm, if_neg hlt] at h
        exact absurd h (by simp)

/-! ### Claim theorems -/

/-- Claim C3: after `Add(f)` at time `T`, `Contains(f)` at time `T2` answers
exactly the comparison `T2 - T < window` — true for every query inside the
window, false once `T2 - T ≥ window`. -/
theorem C3_add_then_contains (c : MessageCache) (T T2 : Int) (msg : String) :
    ((c.Add T msg).Contains T2 msg).1 = decide (T2 - T < c.window) := by
  have hg : mapGet (c.Add T msg).messages msg = some T := mapGet_Add_self c T msg
  have hw : (c.Add T msg).window = c.window := rfl
  simp only [MessageCache.Contains, hg, hw]
  by_cases hlt : T2 - T < c.window
  · simp [hlt]
  · simp [hlt]

/-- Claim C5: `Contains` on an entry whose age is at least the window returns
false and deletes the entry; a later `Cleanup` (at any time) is a no-op for
that fingerprint, and a fresh `Add` afterwards stores the new timestamp. -/
theorem C5_contains_expired_evicts (c : MessageCache) (now now2 t2 : Int)
    (msg : String) (ts : Int)
    (hts : mapGet c.messages msg = some ts)
    (hexp : now - ts ≥ c.window) :
    (c.Contains now msg).1 = false ∧
    mapGet (c.Contains now msg).2.messages msg = none ∧
    mapGet ((c.Contains now msg).2.Cleanup now2).messages msg = none ∧
    mapGet ((c.Contains now msg).2.Add t2 msg).messages msg = some t2 := by
  have hnl : ¬ now - ts < c.window := not_lt.mpr hexp
  have hsnd : (c.Contains now msg).2 =
      { c with messages := mapErase c.messages msg } := by
    simp [MessageCache.Contains, hts, if_neg hnl]
  refine ⟨by simp [MessageCache.Contains, hts, if_neg hnl], ?_, ?_, ?_⟩
  · rw [hsnd]
    exact mapGet_mapErase_self c.messages msg
  · rw [hsnd]
    exact mapGet_sweepOld_none _ _ _ (mapGet_mapErase_self c.messages msg)
  · exact mapGet_Add_self _ _ _

theorem C5_contains_expired_evicts_witness :
    (((⟨[("f", 0)], 10⟩ : MessageCache).Contains 10 "f").1 = false ∧
    mapGet ((⟨[("f", 0)], 10⟩ : MessageCache).Contains 10 "f").2.messages "f" = none ∧
    mapGet (((⟨[("f", 0)], 10⟩ : MessageCache).Contains 10 "f").2.Cleanup 20).messages "f" = none ∧
    mapGet (((⟨[("f", 0)], 10⟩ : MessageCache).Contains 10 "f").2.Add 30 "f").messages "f" = some 30) :=
  C5_contains_expired_evicts ⟨[("f", 0)], 10⟩ 10 20 30 "f" 0 (by decide) (by decide)

/-- Claim C6: `Cleanup` (the sweep) keeps every entry whose age is below the
window and removes every entry whose age strictly exceeds it. The Go map has
pairwise-distinct keys, stated here as `Nodup` of the model's key list. -/
theorem C6_sweep_live_kept_expired_removed (c : MessageCache) (now : Int)
    (k : String) (ts : Int)
    (hnd : (mapKeys c.messages).Nodup)
    (h : mapGet c.messages k = some ts) :
    (now - ts < c.window → mapGet (c.Cleanup now).messages k = some ts) ∧
    (now - ts > c.window → mapGet (c.Cleanup now).messages k = none) := by
  constructor
  · intro hlive
    exact mapGet_sweepOld_live c.window now c.messages h (by omega)
  · intro hexp
    exact mapGet_sweepOld_expired c.window now c.messages hnd h hexp

theorem C6_sweep_witness :
    mapGet ((⟨[("a", 0), ("b", 100)], 10⟩ : MessageCache).Cleanup 50).messages "a" = none ∧
    mapGet ((⟨[("a", 0), ("b", 100)], 10⟩ : MessageCache).Cleanup 50).messages "b" = some 100 :=
  ⟨(C6_sweep_live_kept_expired_removed ⟨[("a", 0), ("b", 100)], 10⟩ 50 "a" 0
      (by decide) (by decide)).2 (by decide),
   (C6_sweep_live_kept_expired_removed ⟨[("a", 0), ("b", 100)], 10⟩ 50 "b" 100
      (by decide) (by decide)).1 (by decide)⟩

/-- Claim C10: at an age exactly equal to the window the two eviction paths
disagree: `Contains` treats the entry as expired (returns false and deletes
it, liveness being the strict `age < window`), while `Cleanup` keeps it (its
removal test is the strict `age > window`). -/
theorem C10_boundary_disagreement (c : MessageCache) (now : Int) (k : String)
    (ts : Int) (h : mapGet c.messages k = some ts)
    (hb : now - ts = c.window) :
    (c.Contains now k).1 = false ∧
    mapGet (c.Contains now k).2.messages k = none ∧
    mapGet (c.Cleanup now).messages k = some ts := by
  have h1 : ¬ now - ts < c.window := by omega
  have h2 : ¬ now - ts > c.window := by omega
  refine ⟨by simp [MessageCache.Contains, h, if_neg h1], ?_, ?_⟩
  · simp only [MessageCache.Contains, h, if_neg h1]
    exact mapGet_mapErase_self c.messages k
  · exact mapGet_sweepOld_live c.window now c.messages h h2

theorem C10_boundary_witness :
    ((⟨[("f", 0)], 10⟩ : MessageCache).Contains 10 "f").1 = false ∧
    mapGet ((⟨[("f", 0)], 10⟩ : MessageCache).Contains 10 "f").2.messages "f" = none ∧
    mapGet ((⟨[("f", 0)], 10⟩ : MessageCache).Cleanup 10).messages "f" = some 0 :=
  C10_boundary_disagreement ⟨[("f", 0)], 10⟩ 10 "f" 0 (by decide) (by decide)

/-- Claim C1 counterexample: batch ["A", "B"] with a notifier that fails on
"A" and succeeds on "B", starting from the fresh one-hour cache. The code
returns the error for "A" immediately (src/main.go line 175), so "B" is
never sent: after the cycle the cache does NOT contain B's fingerprint,
contrary to the claim. -/
theorem C1_counterexample :
    (sendSlackNotification (fun m => !(m == "A")) 0 ["A", "B"]
        (NewMessageCache 3600)).2 = some "A" ∧
    mapGet (sendSlackNotification (fun m => !(m == "A")) 0 ["A", "B"]
        (NewMessageCache 3600)).1.messages "B" = none := by
  decide

/-- Claim C1 (amended): a send failure for a non-duplicate message is
returned as the cycle's error and aborts the batch: `Add` is not called for
the failing message, no later message is processed, and every fingerprint
other than the failing one is exactly as `Contains` left it (in particular a
later message that is not already cached stays absent). -/
theorem C1_send_failure_aborts (send : String → Bool) (now : Int)
    (c : MessageCache) (msg : String) (rest : List String)
    (hdup : (c.Contains now msg).1 = false)
    (hfail : send msg = false) :
    sendSlackNotification send now (msg :: rest) c =
      ((c.Contains now msg).2, some msg) ∧
    (∀ f, f ≠ msg →
      mapGet (c.Contains now msg).2.messages f = mapGet c.messages f) := by
  constructor
  · simp [sendSlackNotification, hdup, hfail]
  · intro f hf
    cases hm : mapGet c.messages msg with
    | none => simp [MessageCache.Contains, hm]
    | some ts =>
        by_cases hlt : now - ts < c.window
        · simp [MessageCache.Contains, hm, if_pos hlt]
        · simp only [MessageCache.Contains, hm, if_neg hlt]
          exact mapGet_mapErase_ne c.messages hf

theorem C1_send_failure_aborts_witness :
    sendSlackNotification (fun m => !(m == "A")) 0 ["A", "B"]
        (NewMessageCache 3600) =
      (((NewMessageCache 3600).Contains 0 "A").2, some "A") ∧
    mapGet ((NewMessageCache 3600).Contains 0 "A").2.messages "B" =
      mapGet (NewMessageCache 3600).messages "B" :=
  ⟨(C1_send_failure_aborts (fun m => !(m == "A")) 0 (NewMessageCache 3600)
      "A" ["B"] (by decide) (by decide)).1,
   (C1_send_failure_aborts (fun m => !(m == "A")) 0 (NewMessageCache 3600)
      "A" ["B"] (by decide) (by decide)).2 "B" (by decide)⟩

/-- Claim C2 counterexample: the concrete interleaving that the
unlock-then-relock window (src/main.go lines 51-55) admits. Cache
`{f ↦ 0}` with window 10, at `now = 20`: the read phase decides to evict
(entry expired); a concurrent `Add f` then stores the fresh timestamp 20;
the evict phase then deletes `f` — the fresh timestamp is lost. Both
serializations (Contains before Add, and Add before Contains) instead leave
`f` present with timestamp 20, so the interleaved outcome matches neither:
the eviction path is not atomic with respect to a concurrent `Add`. -/
theorem C2_counterexample :
    containsReadPhase ⟨[("f", 0)], 10⟩ 20 "f" = EvictDecision.evictExpired ∧
    mapGet (containsEvictPhase ((⟨[("f", 0)], 10⟩ : MessageCache).Add 20 "f")
        "f").messages "f" = none ∧
    mapGet (((⟨[("f", 0)], 10⟩ : MessageCache).Contains 20 "f").2.Add 20
        "f").messages "f" = some 20 ∧
    mapGet (((⟨[("f", 0)], 10⟩ : MessageCache).Add 20 "f").Contains 20
        "f").2.messages "f" = some 20 := by
  decide

/-- Claim C2 (amended): the lazy-eviction path is NOT atomic. Whenever the
read phase of `Contains` observes an expired entry, scheduling a concurrent
`Add` between the read phase and the evict phase loses the fresh timestamp
(the entry ends up absent), while under either serialization of the two
operations the entry ends up present with the fresh timestamp. -/
theorem C2_eviction_not_atomic (c : MessageCache) (now : Int) (msg : String)
    (ts : Int) (h : mapGet c.messages msg = some ts)
    (hexp : ¬ now - ts < c.window) (hw : 0 < c.window) :
    containsReadPhase c now msg = EvictDecision.evictExpired ∧
    mapGet (containsEvictPhase (c.Add now msg) msg).messages msg = none ∧
    mapGet ((c.Contains now msg).2.Add now msg).messages msg = some now ∧
    mapGet ((c.Add now msg).Contains now msg).2.messages msg = some now := by
  refine ⟨?_, ?_, ?_, ?_⟩
  · simp [containsReadPhase, h, if_neg hexp]
  · exact mapGet_mapErase_self _ _
  · exact mapGet_Add_self _ _ _
  · have hg : mapGet (c.Add now msg).messages msg = some now :=
      mapGet_Add_self c now msg
    have hlt : now - now < (c.Add now msg).window := by
      show now - now < c.window
      omega
    simp only [MessageCache.Contains, hg, if_pos hlt]

theorem C2_eviction_not_atomic_witness :
    containsReadPhase ⟨[("g", 0)], 10⟩ 25 "g" = EvictDecision.evictExpired ∧
    mapGet (containsEvictPhase ((⟨[("g", 0)], 10⟩ : MessageCache).Add 25 "g")
        "g").messages "g" = none ∧
    mapGet (((⟨[("g", 0)], 10⟩ : MessageCache).Contains 25 "g").2.Add 25
        "g").messages "g" = some 25 ∧
    mapGet (((⟨[("g", 0)], 10⟩ : MessageCache).Add 25 "g").Contains 25
        "g").2.messages "g" = some 25 :=
  C2_eviction_not_atomic ⟨[("g", 0)], 10⟩ 25 "g" 0 (by decide) (by decide)
    (by decide)

/-- Claim C4 counterexample: with the poll interval configured as 120
seconds ("2m"), the query the code builds at `now = 1000` starts at
`1000 - 60 = 940` (the hard-coded `-time.Minute` of src/main.go line 141),
not at `end - interval = 880`: the lookback is not the configured interval. -/
theorem C4_counterexample :
    ¬ ((queryLoki (fun _ => true) 1000 []).1.1 =
        (queryLoki (fun _ => true) 1000 []).1.2 - 120) := by
  decide

/-- Claim C4 (amended): each cycle queries over a lookback window of fixed
length one minute ending now, regardless of the configured poll interval;
the window length equals the interval only when the interval is one minute. -/
theorem C4_fixed_one_minute_lookback (patternMatch : String → Bool)
    (now : Int) (streams : List (List String)) :
    (queryLoki patternMatch now streams).1 = (now - minuteDur, now) := rfl

/-- Claim C8: no error inside the poll loop or the sweep task terminates the
process (the Bool component, "this tick exits the process", is always
false), and a query failure leaves the cache of that cycle unchanged while
the loop proceeds. -/
theorem C8_loop_errors_nonfatal (q : Except String (List String))
    (send : String → Bool) (now now2 : Int) (c : MessageCache) (e : String) :
    (pollCycle q send now c).2 = false ∧
    (sweepTick c now2).2 = false ∧
    pollCycle (Except.error e) send now c = (c, false) ∧
    pollCycle (Except.error e) send now c =
      pollCycle (Except.ok []) send now c := by
  refine ⟨?_, rfl, rfl, rfl⟩
  cases q with
  | error e2 => rfl
  | ok found =>
      by_cases hl : found.length > 0
      · simp [pollCycle, hl]
      · simp [pollCycle, hl]

theorem sendSlack_new_timestamp_only_on_send (send : String → Bool)
    (now : Int) :
    ∀ (msgs : List String) (c : MessageCache) (f : String) (v : Int),
      mapGet (sendSlackNotification send now msgs c).1.messages f = some v →
      mapGet c.messages f = some v ∨ (send f = true ∧ v = now) := by
  intro msgs
  induction msgs with
  | nil =>
      intro c f v h
      exact Or.inl h
  | cons msg rest ih =>
      intro c f v h
      simp only [sendSlackNotification] at h
      by_cases hdup : (c.Contains now msg).1 = true
      · rw [if_pos hdup, contains_true_snd c now msg hdup] at h
        exact ih c f v h
      · rw [if_neg hdup] at h
        by_cases hs : send msg = true
        · rw [if_pos hs] at h
          rcases ih _ f v h with h2 | h2
          · by_cases hf : f = msg
            · subst hf
              rw [mapGet_Add_self] at h2
              right
              refine ⟨hs, ?_⟩
              injection h2 with h3
              exact h3.symm
            · rw [mapGet_Add_ne _ _ hf] at h2
              exact Or.inl (mapGet_contains_snd_some c now msg h2)
          · exact Or.inr h2
        · rw [if_neg hs] at h
          exact Or.inl (mapGet_contains_snd_some c now msg h)

/-- Claim C7: a duplicate (live `Contains` hit) is skipped — the batch run
over `msg :: rest` equals the run over `rest` on the unchanged cache, so no
`Add` happens for `msg` and its stored timestamp is not refreshed — and in
any batch run the only way a fingerprint can carry a timestamp it did not
already have is a successful send of it during the cycle. -/
theorem C7_duplicate_skipped_no_refresh (send : String → Bool) (now : Int)
    (c : MessageCache) (msg : String) (rest : List String) (ts : Int)
    (hts : mapGet c.messages msg = some ts) (hlive : now - ts < c.window) :
    sendSlackNotification send now (msg :: rest) c =
      sendSlackNotification send now rest c ∧
    (∀ msgs f v,
      mapGet (sendSlackNotification send now msgs c).1.messages f = some v →
      mapGet c.messages f = some v ∨ (send f = true ∧ v = now)) := by
  constructor
  · have h1 : (c.Contains now msg).1 = true := by
      simp [MessageCache.Contains, hts, if_pos hlive]
    have h2 : (c.Contains now msg).2 = c := contains_true_snd c now msg h1
    simp only [sendSlackNotification, h1, if_true, h2]
  · intro msgs f v h
    exact sendSlack_new_timestamp_only_on_send send now msgs c f v h

theorem C7_duplicate_skipped_witness :
    sendSlackNotification (fun _ => true) 6 ["A", "B"] ⟨[("A", 5)], 10⟩ =
      sendSlackNotification (fun _ => true) 6 ["B"] ⟨[("A", 5)], 10⟩ :=
  (C7_duplicate_skipped_no_refresh (fun _ => true) 6 ⟨[("A", 5)], 10⟩ "A"
    ["B"] 5 (by decide) (by decide)).1

/-- Concrete model of `time.ParseDuration` restricted to the strings this
development exercises: only "1m" parses (to 60 seconds). -/
def parseDur1m : String → Option Int :=
  fun s => if s = "1m" then some 60 else none

/-- Claim C9 counterexample: a configuration whose pattern compiles and whose
Slack token and channel are both present, but whose interval string does not
parse as a duration. Startup does NOT proceed to polling — `main` also calls
`time.ParseDuration` and `log.Fatalf`s on failure (src/main.go lines
200-203) — contradicting "with a valid pattern and credentials present,
startup proceeds to polling". -/
theorem C9_counterexample :
    ((fun _ => true : String → Bool) "error|exception|critical" = true) ∧
    ("tok" : String) ≠ "" ∧ ("chan" : String) ≠ "" ∧
    startup (fun _ => true) parseDur1m
        ⟨"error|exception|critical", "bogus", "tok", "chan"⟩ =
      Except.error "Failed to parse interval" := by
  refine ⟨rfl, by decide, by decide, rfl⟩

/-- Claim C9 (amended): startup validation is fatal — missing credentials or
a non-compiling pattern stop the process before the poll loop — and with a
valid pattern, both credentials present, AND a parseable interval, startup
proceeds to the poll loop with that interval. -/
theorem C9_startup_validation (compileRegex : String → Bool)
    (parseDuration : String → Option Int) (cfg : Config) :
    (cfg.slackToken = "" ∨ cfg.slackChannel = "" →
        (startup compileRegex parseDuration cfg).isOk = false) ∧
    (compileRegex cfg.lokiPattern = false →
        (startup compileRegex parseDuration cfg).isOk = false) ∧
    (∀ i, cfg.slackToken ≠ "" → cfg.slackChannel ≠ "" →
        compileRegex cfg.lokiPattern = true →
        parseDuration cfg.lokiInterval = some i →
        startup compileRegex parseDuration cfg = Except.ok i) := by
  refine ⟨?_, ?_, ?_⟩
  · intro hcred
    rcases hcred with h | h
    · simp [startup, validateConfig, h, Except.isOk, Except.toBool]
    · by_cases ht : cfg.slackToken = ""
      · simp [startup, validateConfig, ht, Except.isOk, Except.toBool]
      · simp [startup, validateConfig, ht, h, Except.isOk, Except.toBool]
  · intro hpat
    by_cases ht : cfg.slackToken = ""
    · simp [startup, validateConfig, ht, Except.isOk, Except.toBool]
    · by_cases hc : cfg.slackChannel = ""
      · simp [startup, validateConfig, ht, hc, Except.isOk, Except.toBool]
      · simp [startup, validateConfig, ht, hc, hpat, Except.isOk, Except.toBool]
  · intro i ht hc hpat hdur
    simp [startup, validateConfig, ht, hc, hpat, hdur]

theorem C9_startup_validation_witness :
    (startup (fun _ => true) parseDur1m ⟨"p", "1m", "", "chan"⟩).isOk = false ∧
    (startup (fun _ => false) parseDur1m ⟨"p", "1m", "tok", "chan"⟩).isOk = false ∧
    startup (fun _ => true) parseDur1m ⟨"p", "1m", "tok", "chan"⟩ = Except.ok 60 :=
  ⟨(C9_startup_validation (fun _ => true) parseDur1m
      ⟨"p", "1m", "", "chan"⟩).1 (Or.inl rfl),
   (C9_startup_validation (fun _ => false) parseDur1m
      ⟨"p", "1m", "tok", "chan"⟩).2.1 rfl,
   (C9_startup_validation (fun _ => true) parseDur1m
      ⟨"p", "1m", "tok", "chan"⟩).2.2 60 (by decide) (by decide) rfl (by decide)⟩
